import Mathlib

set_option maxRecDepth 4000

/-!
Verification of the r64 emulator core (MIPS64 interpreter and MI interrupt
controller) against its specification.  The Rust sources `src/mi.rs` and
`src/mips64/cpu.rs` are shallowly embedded below: machine integers become
`Nat` with explicit wrapping (`% 2^32`, `% 2^64`), register files become
lists, paths that panic in Rust become `Option.none`.
-/

/-! ## Small integer helpers (u32 / u64 views over Nat) -/

/-- Result of `bit_field::BitField::set_bit` on a `u32`: set or clear bit `i`. -/
def setBit32 (x i : Nat) (b : Bool) : Nat :=
  if b then x ||| (1 <<< i) else x &&& (0xFFFFFFFF ^^^ (1 <<< i))

/-- Signed value of the low 32 bits (two's complement reading of a `u32`). -/
def toI32 (x : Nat) : Int :=
  if x % 2 ^ 32 < 2 ^ 31 then (x % 2 ^ 32 : Nat) else (x % 2 ^ 32 : Nat) - 2 ^ 32

/-- Signed value of the low 64 bits (two's complement reading of a `u64`). -/
def toI64 (x : Nat) : Int :=
  if x % 2 ^ 64 < 2 ^ 63 then (x % 2 ^ 64 : Nat) else (x % 2 ^ 64 : Nat) - 2 ^ 64

/-- Two's-complement 64-bit pattern of an integer (`as u64` on an `i64` value). -/
def wrap64 (i : Int) : Nat := (i % (2 ^ 64 : Nat)).toNat

/-- Two's-complement 32-bit pattern of an integer (`as u32` on an `i32` value). -/
def wrap32 (i : Int) : Nat := (i % (2 ^ 32 : Nat)).toNat

/-- Modelled from the spec: `Numerics::sx64` from the `emu` crate (absent from
`src/`) sign-extends a 32-bit value to 64 bits ("every 32-bit ALU result that
lands in a 64-bit register is sign-extended from bit 31 to bit 63"). -/
def sx64 (x : Nat) : Nat := wrap64 (toI32 x)

/-- Modelled from the spec: `Numerics::isx64`, the signed 64-bit reading of a
sign-extended 32-bit value. -/
def isx64 (x : Nat) : Int := toI32 x

/-! ## CpuContext (src/mips64/cpu.rs) -/

/-- Architectural CPU state: 32 GPRs, HI/LO, PC, pending branch target,
cycle clock, tight-exit flag and the 8-bit interrupt-line bitmask. -/
structure CpuContext where
  regs : List Nat
  hi : Nat
  lo : Nat
  pc : Nat
  branch_pc : Nat
  clock : Int
  tight_exit : Bool
  lines : Nat
deriving DecidableEq

/-- Embedding of `CpuContext::branch`. -/
def CpuContext.branch (ctx : CpuContext) (cond : Bool) (tgt : Nat) (likely : Bool) :
    CpuContext :=
  if cond then
    { ctx with branch_pc := tgt, tight_exit := true }
  else if likely then
    { ctx with pc := (ctx.pc + 4) % 2 ^ 32, clock := ctx.clock + 1, tight_exit := true }
  else
    ctx

/-- Embedding of `CpuContext::set_line`.  `line` is the bit value of the
`Line` enum (IP0 = 1, IP1 = 2, IP2 = 4, ...).  Note the source clears with
`self.lines &= line_val` (no complement). -/
def CpuContext.set_line (ctx : CpuContext) (line : Nat) (stat : Bool) : CpuContext :=
  if stat then
    { ctx with
      tight_exit := if ctx.lines ||| line ≠ 0 then true else ctx.tight_exit,
      lines := ctx.lines ||| line }
  else
    { ctx with lines := ctx.lines &&& line }

/-- Embedding of `CpuContext::set_pc`. -/
def CpuContext.set_pc (ctx : CpuContext) (pc : Nat) : CpuContext :=
  { ctx with pc := pc, branch_pc := 0 }

/-- The CPU context as built by `Cpu::new`. -/
def CpuContext.reset : CpuContext :=
  { regs := List.replicate 32 0
    hi := 0
    lo := 0
    pc := 0x1FC00000
    branch_pc := 0
    clock := 0
    tight_exit := false
    lines := 0 }

/-! ## MI controller (src/mi.rs) -/

/-- The four 32-bit MI registers (raw values, as stored in the `Reg32` cells). -/
structure Mi where
  init_mode : Nat
  version : Nat
  interrupt : Nat
  interrupt_mask : Nat
deriving DecidableEq

/-- The MI device together with the CPU context whose interrupt line it
drives (`Mi` holds an `Rc<RefCell<Box<Cpu>>>` in the source). -/
structure MiCpu where
  mi : Mi
  cpu : CpuContext
deriving DecidableEq

/-- Bit value of `mips64::Line::IP2`, the CPU line all RSP interrupts go to. -/
def RSP_LINE : Nat := 4

/-- Embedding of `Mi::update_interrupts`: drive IP2 from
`interrupt & interrupt_mask > 0`. -/
def MiCpu.update_interrupts (s : MiCpu) : MiCpu :=
  let val := decide (0 < s.mi.interrupt &&& s.mi.interrupt_mask)
  { s with cpu := s.cpu.set_line RSP_LINE val }

/-- Embedding of `Mi::set_line` (device interrupt lines SP=0 .. DP=5): set or
clear bit `line` of the `interrupt` register, then recompute the CPU line. -/
def MiCpu.set_line (s : MiCpu) (line : Nat) (val : Bool) : MiCpu :=
  MiCpu.update_interrupts
    { s with mi := { s.mi with interrupt := setBit32 s.mi.interrupt line val } }

/-- Embedding of `Mi::cb_write_init_mode` (paired clear/set bits; bit 11
acknowledges the DP interrupt). -/
def MiCpu.cb_write_init_mode (s : MiCpu) (old new : Nat) : MiCpu :=
  let res := (old &&& (0xFFFFFFFF ^^^ 0x7F)) ||| (new &&& 0x7F)
  let res := if new.testBit 7 then setBit32 res 7 false else res
  let res := if new.testBit 8 then setBit32 res 7 true else res
  let res := if new.testBit 9 then setBit32 res 8 false else res
  let res := if new.testBit 10 then setBit32 res 8 true else res
  let s := if new.testBit 11 then s.set_line 5 false else s
  let res := if new.testBit 12 then setBit32 res 9 false else res
  let res := if new.testBit 13 then setBit32 res 9 true else res
  { s with mi := { s.mi with init_mode := res } }

/-- Embedding of `Mi::cb_write_interrupt_mask`, including the two slips in the
source: the "clear PI mask" branch (write bit 8) clears bit 3 rather than
bit 4, and the final commit stores the computed value into `init_mode`
rather than `interrupt_mask`. -/
def MiCpu.cb_write_interrupt_mask (s : MiCpu) (old new : Nat) : MiCpu :=
  let res := if new.testBit 0 then setBit32 old 0 false else old
  let res := if new.testBit 1 then setBit32 res 0 true else res
  let res := if new.testBit 2 then setBit32 res 1 false else res
  let res := if new.testBit 3 then setBit32 res 1 true else res
  let res := if new.testBit 4 then setBit32 res 2 false else res
  let res := if new.testBit 5 then setBit32 res 2 true else res
  let res := if new.testBit 6 then setBit32 res 3 false else res
  let res := if new.testBit 7 then setBit32 res 3 true else res
  let res := if new.testBit 8 then setBit32 res 3 false else res
  let res := if new.testBit 9 then setBit32 res 4 true else res
  let res := if new.testBit 10 then setBit32 res 5 false else res
  let res := if new.testBit 11 then setBit32 res 5 true else res
  MiCpu.update_interrupts { s with mi := { s.mi with init_mode := res } }

/-- Modelled from the spec: the register-declaration macro framework
(`emu::bus::be::Reg32` and the `DeviceBE` derive, not under `src/`) routes a
bus write to a register with a `wcb` attribute to its write callback, passing
the current raw register value as `old` and the written word (restricted to
the declared `rwmask`, here `0xFFF`) as `new`; the callback performs the
commit itself. -/
def MiCpu.write_interrupt_mask (s : MiCpu) (w : Nat) : MiCpu :=
  s.cb_write_interrupt_mask s.mi.interrupt_mask (w &&& 0xFFF)

/-- Modelled from the spec: bus-write dispatch for the `init_mode` register
(`rwmask = 0x3FFF`), as for `MiCpu.write_interrupt_mask`. -/
def MiCpu.write_init_mode (s : MiCpu) (w : Nat) : MiCpu :=
  s.cb_write_init_mode s.mi.init_mode (w &&& 0x3FFF)

/-- MI and CPU at reset: `init_mode = 0x80`, `version = 0x01010101`, the
other registers zero, the CPU as built by `Cpu::new`. -/
def MiCpu.reset : MiCpu :=
  { mi := { init_mode := 0x80, version := 0x01010101, interrupt := 0, interrupt_mask := 0 }
    cpu := CpuContext.reset }

/-- MI states reachable from reset under the MI-visible operations: writes to
the two writable registers and device `set_line` calls. -/
inductive MiReach : MiCpu → Prop where
  | init : MiReach MiCpu.reset
  | write_mask (s : MiCpu) (w : Nat) : MiReach s → MiReach (s.write_interrupt_mask w)
  | write_mode (s : MiCpu) (w : Nat) : MiReach s → MiReach (s.write_init_mode w)
  | dev_line (s : MiCpu) (l : Nat) (v : Bool) : l < 6 → MiReach s → MiReach (s.set_line l v)

/-- Invariant of all reachable MI states: the raw `interrupt_mask` register is
never written (the mask-write callback commits to `init_mode`), and the IP2
bit of the CPU line bitmask is never raised. -/
def MiInv (s : MiCpu) : Prop :=
  s.mi.interrupt_mask = 0 ∧ s.cpu.lines &&& 4 = 0

theorem miInv_update_interrupts (s : MiCpu) (h : MiInv s) :
    MiInv s.update_interrupts := by
  obtain ⟨h1, h2⟩ := h
  unfold MiCpu.update_interrupts
  simp only [h1, Nat.and_zero, decide_eq_true_eq]
  constructor
  · exact h1
  · simp only [CpuContext.set_line, RSP_LINE]
    norm_num
    rw [Nat.and_assoc]
    simpa using h2

theorem miInv_set_line (s : MiCpu) (l : Nat) (v : Bool) (h : MiInv s) :
    MiInv (s.set_line l v) := by
  unfold MiCpu.set_line
  exact miInv_update_interrupts _ ⟨h.1, h.2⟩

theorem miInv_write_mask (s : MiCpu) (w : Nat) (h : MiInv s) :
    MiInv (s.write_interrupt_mask w) := by
  unfold MiCpu.write_interrupt_mask MiCpu.cb_write_interrupt_mask
  exact miInv_update_interrupts _ ⟨h.1, h.2⟩

theorem miInv_write_mode (s : MiCpu) (w : Nat) (h : MiInv s) :
    MiInv (s.write_init_mode w) := by
  unfold MiCpu.write_init_mode MiCpu.cb_write_init_mode
  by_cases hb : (w &&& 0x3FFF).testBit 11
  · simp only [hb, if_true]
    exact miInv_set_line _ _ _ h
  · simp only [hb, if_false]
    exact h

theorem miReach_inv (s : MiCpu) (h : MiReach s) : MiInv s := by
  induction h with
  | init => exact ⟨rfl, rfl⟩
  | write_mask s w _ ih => exact miInv_write_mask s w ih
  | write_mode s w _ ih => exact miInv_write_mode s w ih
  | dev_line s l v _ _ ih => exact miInv_set_line s l v ih

/-- C1: for every reachable MI state, after any write to the `interrupt_mask`
register and after any MI `set_line(line, val)` call from a device, the IP2
bit of the CPU interrupt-line bitmask is set exactly when
`interrupt & interrupt_mask` is nonzero.  (On all reachable states both sides
are false: the mask-write callback commits to `init_mode`, so the raw
`interrupt_mask` register stays 0 and IP2 is never asserted.) -/
theorem mi_ip2_matches_masked_interrupt (s : MiCpu) (h : MiReach s) :
    (∀ w : Nat,
      ((s.write_interrupt_mask w).cpu.lines &&& 4 ≠ 0 ↔
        (s.write_interrupt_mask w).mi.interrupt &&&
          (s.write_interrupt_mask w).mi.interrupt_mask ≠ 0)) ∧
    (∀ l v, l < 6 →
      ((s.set_line l v).cpu.lines &&& 4 ≠ 0 ↔
        (s.set_line l v).mi.interrupt &&& (s.set_line l v).mi.interrupt_mask ≠ 0)) := by
  constructor
  · intro w
    obtain ⟨h1, h2⟩ := miInv_write_mask s w (miReach_inv s h)
    rw [h1, Nat.and_zero, h2]
  · intro l v _
    obtain ⟨h1, h2⟩ := miInv_set_line s l v (miReach_inv s h)
    rw [h1, Nat.and_zero, h2]

theorem mi_ip2_matches_masked_interrupt_witness :
    ((MiCpu.reset.write_interrupt_mask 2).cpu.lines &&& 4 ≠ 0 ↔
      (MiCpu.reset.write_interrupt_mask 2).mi.interrupt &&&
        (MiCpu.reset.write_interrupt_mask 2).mi.interrupt_mask ≠ 0) :=
  (mi_ip2_matches_masked_interrupt MiCpu.reset MiReach.init).1 2

/-- C2: evaluating the interrupt-mask write at its failing input.  Writing
`0b10` (the "set SP mask" bit) from the reset state leaves the
`interrupt_mask` register at 0 — the claim requires its bit 0 to become 1 —
and instead stores the computed value 1 into `init_mode`, clobbering the
reset value 0x80.  Writing `1 << 8` ("clear PI mask") when the VI and PI
enable bits are both set clears bit 3 (VI) of the computed value rather than
bit 4 (PI). -/
theorem write_interrupt_mask_failing_input :
    (MiCpu.reset.write_interrupt_mask 2).mi.interrupt_mask = 0 ∧
    (MiCpu.reset.write_interrupt_mask 2).mi.init_mode = 1 ∧
    (MiCpu.cb_write_interrupt_mask MiCpu.reset 0x18 (1 <<< 8)).mi.init_mode = 0x10 := by
  decide

/-- C3: evaluating `CpuContext::set_line` at its failing input.  With lines
IP0 and IP1 both set (bitmask 3), clearing IP0 must give bitmask 2; the
source computes `lines &= line_val`, giving 1: the named bit survives and the
other set bit is destroyed. -/
theorem set_line_clear_failing_input :
    (({ CpuContext.reset with lines := 3 } : CpuContext).set_line 1 false).lines = 1 ∧
    (1 : Nat) ≠ 2 := by
  decide

/-! ## Instruction decode (the Mipsop accessors of src/mips64/cpu.rs) -/

/-- Sign-extended (as a mathematical integer) 16-bit immediate: `sximm32`. -/
def sximm32 (w : Nat) : Int :=
  if w &&& 0xFFFF < 0x8000 then ((w &&& 0xFFFF : Nat) : Int)
  else ((w &&& 0xFFFF : Nat) : Int) - 0x10000

/-- Shift amount field `sa = bits[10:6]`. -/
def saOf (w : Nat) : Nat := (w >>> 6) &&& 0x1F

/-- Source register field `rs = bits[25:21]`. -/
def rsIdx (w : Nat) : Nat := (w >>> 21) &&& 0x1F

/-- Target register field `rt = bits[20:16]`. -/
def rtIdx (w : Nat) : Nat := (w >>> 16) &&& 0x1F

/-- Destination register field `rd = bits[15:11]`. -/
def rdIdx (w : Nat) : Nat := (w >>> 11) &&& 0x1F

/-- Register read: registers are `u64` cells. -/
def regGet (ctx : CpuContext) (i : Nat) : Nat := ctx.regs.getD i 0 % 2 ^ 64

/-- Register write: stores a `u64` value.  Index 0 is not special-cased,
exactly as in the source. -/
def regSet (ctx : CpuContext) (i v : Nat) : CpuContext :=
  { ctx with regs := ctx.regs.set i (v % 2 ^ 64) }

/-- Branch target `btgt = pc + sximm32 as u32 * 4` (u32 wrapping). -/
def btgt (ctx : CpuContext) (w : Nat) : Nat :=
  (ctx.pc + wrap32 (sximm32 w) * 4 % 2 ^ 32) % 2 ^ 32

/-- Jump target `jtgt = (pc & 0xF000_0000) + (jimm * 4)`. -/
def jtgt (ctx : CpuContext) (w : Nat) : Nat :=
  (ctx.pc &&& 0xF0000000) + (w &&& 0x03FFFFFF) * 4

/-! ## Bus model

Modelled from the spec: the bus is an external abstraction (spec section 4.1,
not under `src/`) offering big-endian aligned reads/writes for widths
8/16/32/64 and a fetch handle over a contiguous run of 32-bit words.  We
store memory as a map from 4-byte-aligned masked addresses to 32-bit words;
narrow accesses address big-endian byte lanes of the containing word, and
64-bit accesses combine two consecutive words (high word first).
`regionLen` gives the length, in words, of the contiguous fetch region
starting at a given base, bounding the fetch iterator. -/
structure Bus where
  mem : Nat → Nat
  regionLen : Nat → Nat

/-- Data-access address masking for width 4: `addr & 0x1FFF_FFFF & !3`. -/
def mask32 (addr : Nat) : Nat := addr &&& 0x1FFFFFFF &&& 0xFFFFFFFC

/-- Aligned big-endian 32-bit read, with the CPU address masking applied. -/
def cpuRead32 (b : Bus) (addr : Nat) : Nat := b.mem (mask32 addr) % 2 ^ 32

/-- Aligned big-endian 32-bit write, with the CPU address masking applied. -/
def cpuWrite32 (b : Bus) (addr v : Nat) : Bus :=
  { b with mem := fun a => if a = mask32 addr then v % 2 ^ 32 else b.mem a }

/-- Big-endian byte read (`read::<u8>`, masking `addr & 0x1FFF_FFFF`). -/
def cpuRead8 (b : Bus) (addr : Nat) : Nat :=
  let a := addr &&& 0x1FFFFFFF
  (b.mem (a &&& 0xFFFFFFFC) >>> (8 * (3 - (a &&& 3)))) &&& 0xFF

/-- Big-endian byte write into the containing word. -/
def cpuWrite8 (b : Bus) (addr v : Nat) : Bus :=
  let a := addr &&& 0x1FFFFFFF
  let sh := 8 * (3 - (a &&& 3))
  let old := b.mem (a &&& 0xFFFFFFFC) % 2 ^ 32
  { b with mem := fun x =>
      if x = a &&& 0xFFFFFFFC then
        (old &&& (0xFFFFFFFF ^^^ (0xFF <<< sh))) ||| ((v % 2 ^ 8) <<< sh)
      else b.mem x }

/-- Big-endian 16-bit read (`read::<u16>`, masking `addr & 0x1FFF_FFFF & !1`). -/
def cpuRead16 (b : Bus) (addr : Nat) : Nat :=
  let a := addr &&& 0x1FFFFFFF &&& 0xFFFFFFFE
  (b.mem (a &&& 0xFFFFFFFC) >>> (8 * (2 - (a &&& 3)))) &&& 0xFFFF

/-- Big-endian 16-bit write into the containing word. -/
def cpuWrite16 (b : Bus) (addr v : Nat) : Bus :=
  let a := addr &&& 0x1FFFFFFF &&& 0xFFFFFFFE
  let sh := 8 * (2 - (a &&& 3))
  let old := b.mem (a &&& 0xFFFFFFFC) % 2 ^ 32
  { b with mem := fun x =>
      if x = a &&& 0xFFFFFFFC then
        (old &&& (0xFFFFFFFF ^^^ (0xFFFF <<< sh))) ||| ((v % 2 ^ 16) <<< sh)
      else b.mem x }

/-- Big-endian 64-bit read (`read::<u64>`, masking `addr & 0x1FFF_FFFF & !7`):
high word first. -/
def cpuRead64 (b : Bus) (addr : Nat) : Nat :=
  let a := addr &&& 0x1FFFFFFF &&& 0xFFFFFFF8
  (b.mem a % 2 ^ 32) * 2 ^ 32 + b.mem (a + 4) % 2 ^ 32

/-- Big-endian 64-bit write: high word first. -/
def cpuWrite64 (b : Bus) (addr v : Nat) : Bus :=
  let a := addr &&& 0x1FFFFFFF &&& 0xFFFFFFF8
  { b with mem := fun x =>
      if x = a then (v % 2 ^ 64) >>> 32
      else if x = a + 4 then v % 2 ^ 32
      else b.mem x }

/-! ## Unaligned load/store helpers (Cpu::lwl / lwr / swl / swr) -/

/-- Embedding of `Cpu::lwl`. -/
def lwl (b : Bus) (addr reg : Nat) : Nat :=
  let mem := cpuRead32 b addr
  let shift := (addr &&& 3) * 8
  let mask := (1 <<< shift) - 1
  (reg &&& mask) ||| ((mem <<< shift) % 2 ^ 32 &&& (0xFFFFFFFF ^^^ mask))

/-- Embedding of `Cpu::lwr`. -/
def lwr (b : Bus) (addr reg : Nat) : Nat :=
  let mem := cpuRead32 b addr
  let shift := ((addr &&& 3) ^^^ 3) * 8
  let mask := (1 <<< (32 - shift)) - 1
  (reg &&& (0xFFFFFFFF ^^^ mask)) ||| ((mem >>> shift) &&& mask)

/-- Embedding of `Cpu::swl`. -/
def swl (b : Bus) (addr reg : Nat) : Nat :=
  let mem := cpuRead32 b addr
  let shift := (addr &&& 3) * 8
  let mask := (1 <<< (32 - shift)) - 1
  (mem &&& (0xFFFFFFFF ^^^ mask)) ||| ((reg >>> shift) &&& mask)

/-- Embedding of `Cpu::swr`. -/
def swr (b : Bus) (addr reg : Nat) : Nat :=
  let mem := cpuRead32 b addr
  let shift := ((addr &&& 3) ^^^ 3) * 8
  let mask := (1 <<< shift) - 1
  (mem &&& mask) ||| ((reg <<< shift) % 2 ^ 32 &&& (0xFFFFFFFF ^^^ mask))

/-! ## hi_lo splitting for multiply results -/

/-- Modelled from the spec: `Numerics::hi_lo` on a 64-bit product (emu crate,
absent from `src/`) splits into upper/lower 32-bit halves, "each
sign-extended to 64 bits" (spec section 4.4.1). -/
def hi_lo64 (p : Nat) : Nat × Nat := (sx64 (p >>> 32), sx64 (p &&& 0xFFFFFFFF))

/-- Modelled from the spec: `hi_lo` on a 128-bit product splits into 64-bit
halves placed in HI/LO (the `as u64` casts in the source truncate). -/
def hi_lo128 (p : Nat) : Nat × Nat := ((p >>> 64) % 2 ^ 64, p &&& (2 ^ 64 - 1))

/-- Two's-complement 128-bit pattern of an integer. -/
def wrap128 (i : Int) : Nat := (i % (2 ^ 128 : Nat)).toNat

/-- Sign extension of a byte to 64 bits (`u8::sx64`). -/
def sx8_64 (v : Nat) : Nat :=
  if v % 2 ^ 8 < 2 ^ 7 then v % 2 ^ 8 else v % 2 ^ 8 + (2 ^ 64 - 2 ^ 8)

/-- Sign extension of a halfword to 64 bits (`u16::sx64`). -/
def sx16_64 (v : Nat) : Nat :=
  if v % 2 ^ 16 < 2 ^ 15 then v % 2 ^ 16 else v % 2 ^ 16 + (2 ^ 64 - 2 ^ 16)

/-! ## The instruction interpreter (Cpu::op), no-coprocessor configuration

Paths that panic in Rust (unimplemented opcodes, the `unimplemented!()`
overflow trap, and `wrapping_div` / `wrapping_rem` with divisor zero, which
panic on division by zero) are `none`.  COPx opcodes and the coprocessor
load/stores log and fall through because no coprocessor is installed, and
BREAK raises an exception that `Cpu::exception` drops without a Cop0.

The register accessors mirror the `Mipsop` helpers of the source. -/

/-- Accessor `rs64`: the 64-bit value of the rs register. -/
def rs64 (ctx : CpuContext) (w : Nat) : Nat := regGet ctx (rsIdx w)

/-- Accessor `rt64`: the 64-bit value of the rt register. -/
def rt64 (ctx : CpuContext) (w : Nat) : Nat := regGet ctx (rtIdx w)

/-- Accessor `rs32`: the low 32 bits of rs. -/
def rs32 (ctx : CpuContext) (w : Nat) : Nat := rs64 ctx w % 2 ^ 32

/-- Accessor `rt32`: the low 32 bits of rt. -/
def rt32 (ctx : CpuContext) (w : Nat) : Nat := rt64 ctx w % 2 ^ 32

/-- Accessor `irs32`: rs as a signed 32-bit value. -/
def irs32 (ctx : CpuContext) (w : Nat) : Int := toI32 (rs64 ctx w)

/-- Accessor `irt32`: rt as a signed 32-bit value. -/
def irt32 (ctx : CpuContext) (w : Nat) : Int := toI32 (rt64 ctx w)

/-- Accessor `irs64`: rs as a signed 64-bit value. -/
def irs64 (ctx : CpuContext) (w : Nat) : Int := toI64 (rs64 ctx w)

/-- Accessor `irt64`: rt as a signed 64-bit value. -/
def irt64 (ctx : CpuContext) (w : Nat) : Int := toI64 (rt64 ctx w)

/-- Effective address `ea = rs32 + sximm32 as u32` (u32 wrapping). -/
def eaOf (ctx : CpuContext) (w : Nat) : Nat := (rs32 ctx w + wrap32 (sximm32 w)) % 2 ^ 32

/-- The dispatch body of `Cpu::op`, after the clock increment, on the
already-masked 32-bit word. -/
def execOpBody (b : Bus) (ctx : CpuContext) (w : Nat) : Option (CpuContext × Bus) :=
  if w >>> 26 = 0x00 then
    if w &&& 0x3F = 0x00 then
      some (regSet ctx (rdIdx w) (sx64 (rt32 ctx w <<< saOf w % 2 ^ 32)), b)
    else if w &&& 0x3F = 0x02 then
      some (regSet ctx (rdIdx w) (sx64 (rt32 ctx w >>> saOf w)), b)
    else if w &&& 0x3F = 0x03 then
      some (regSet ctx (rdIdx w) (wrap64 (Int.fdiv (irt32 ctx w) (2 ^ saOf w))), b)
    else if w &&& 0x3F = 0x04 then
      some (regSet ctx (rdIdx w) (sx64 (rt32 ctx w <<< (rs32 ctx w &&& 0x1F) % 2 ^ 32)), b)
    else if w &&& 0x3F = 0x06 then
      some (regSet ctx (rdIdx w) (sx64 (rt32 ctx w >>> (rs32 ctx w &&& 0x1F))), b)
    else if w &&& 0x3F = 0x07 then
      some (regSet ctx (rdIdx w) (wrap64 (Int.fdiv (irt32 ctx w) (2 ^ (rs32 ctx w &&& 0x1F)))), b)
    else if w &&& 0x3F = 0x08 then some (ctx.branch true (rs32 ctx w) true, b)
    else if w &&& 0x3F = 0x09 then
      let c1 := regSet ctx 31 ((ctx.pc + 4) % 2 ^ 32)
      some (c1.branch true (rs32 c1 w) true, b)
    else if w &&& 0x3F = 0x0D then some (ctx, b)
    else if w &&& 0x3F = 0x0F then some (ctx, b)
    else if w &&& 0x3F = 0x10 then some (regSet ctx (rdIdx w) ctx.hi, b)
    else if w &&& 0x3F = 0x11 then some ({ ctx with hi := rs64 ctx w }, b)
    else if w &&& 0x3F = 0x12 then some (regSet ctx (rdIdx w) ctx.lo, b)
    else if w &&& 0x3F = 0x13 then some ({ ctx with lo := rs64 ctx w }, b)
    else if w &&& 0x3F = 0x14 then
      some (regSet ctx (rdIdx w) (rt64 ctx w <<< (rs32 ctx w &&& 0x3F) % 2 ^ 64), b)
    else if w &&& 0x3F = 0x16 then
      some (regSet ctx (rdIdx w) (rt64 ctx w >>> (rs32 ctx w &&& 0x3F)), b)
    else if w &&& 0x3F = 0x17 then
      some (regSet ctx (rdIdx w) (wrap64 (Int.fdiv (irt64 ctx w) (2 ^ (rs32 ctx w &&& 0x3F)))), b)
    else if w &&& 0x3F = 0x18 then
      some ({ ctx with lo := (hi_lo64 (wrap64 (isx64 (rt32 ctx w) * isx64 (rs32 ctx w)))).2,
                       hi := (hi_lo64 (wrap64 (isx64 (rt32 ctx w) * isx64 (rs32 ctx w)))).1 }, b)
    else if w &&& 0x3F = 0x19 then
      some ({ ctx with lo := (hi_lo64 (rt32 ctx w * rs32 ctx w % 2 ^ 64)).2,
                       hi := (hi_lo64 (rt32 ctx w * rs32 ctx w % 2 ^ 64)).1 }, b)
    else if w &&& 0x3F = 0x1A then
      if irt32 ctx w = 0 then none
      else some ({ ctx with lo := sx64 (wrap32 (Int.tdiv (irs32 ctx w) (irt32 ctx w))),
                            hi := sx64 (wrap32 (Int.tmod (irs32 ctx w) (irt32 ctx w))) }, b)
    else if w &&& 0x3F = 0x1B then
      if rt32 ctx w = 0 then none
      else some ({ ctx with lo := sx64 (rs32 ctx w / rt32 ctx w),
                            hi := sx64 (rs32 ctx w % rt32 ctx w) }, b)
    else if w &&& 0x3F = 0x1C then
      some ({ ctx with lo := (hi_lo128 (wrap128 (irt64 ctx w * irs64 ctx w))).2,
                       hi := (hi_lo128 (wrap128 (irt64 ctx w * irs64 ctx w))).1 }, b)
    else if w &&& 0x3F = 0x1D then
      some ({ ctx with lo := (hi_lo128 (rt64 ctx w * rs64 ctx w % 2 ^ 128)).2,
                       hi := (hi_lo128 (rt64 ctx w * rs64 ctx w % 2 ^ 128)).1 }, b)
    else if w &&& 0x3F = 0x1E then
      if irt64 ctx w = 0 then none
      else some ({ ctx with lo := wrap64 (Int.tdiv (irs64 ctx w) (irt64 ctx w)),
                            hi := wrap64 (Int.tmod (irs64 ctx w) (irt64 ctx w)) }, b)
    else if w &&& 0x3F = 0x1F then
      if rt64 ctx w = 0 then none
      else some ({ ctx with lo := rs64 ctx w / rt64 ctx w,
                            hi := rs64 ctx w % rt64 ctx w }, b)
    else if w &&& 0x3F = 0x20 then
      if irs32 ctx w + irt32 ctx w < -(2 ^ 31) ∨ 2 ^ 31 ≤ irs32 ctx w + irt32 ctx w then none
      else some (regSet ctx (rdIdx w) (wrap64 (irs32 ctx w + irt32 ctx w)), b)
    else if w &&& 0x3F = 0x21 then
      some (regSet ctx (rdIdx w) (sx64 ((rs32 ctx w + rt32 ctx w) % 2 ^ 32)), b)
    else if w &&& 0x3F = 0x22 then
      if irs32 ctx w - irt32 ctx w < -(2 ^ 31) ∨ 2 ^ 31 ≤ irs32 ctx w - irt32 ctx w then none
      else some (regSet ctx (rdIdx w) (wrap64 (irs32 ctx w - irt32 ctx w)), b)
    else if w &&& 0x3F = 0x23 then
      some (regSet ctx (rdIdx w) (sx64 ((rs32 ctx w + 2 ^ 32 - rt32 ctx w) % 2 ^ 32)), b)
    else if w &&& 0x3F = 0x24 then some (regSet ctx (rdIdx w) (rs64 ctx w &&& rt64 ctx w), b)
    else if w &&& 0x3F = 0x25 then some (regSet ctx (rdIdx w) (rs64 ctx w ||| rt64 ctx w), b)
    else if w &&& 0x3F = 0x26 then some (regSet ctx (rdIdx w) (rs64 ctx w ^^^ rt64 ctx w), b)
    else if w &&& 0x3F = 0x27 then
      some (regSet ctx (rdIdx w) ((2 ^ 64 - 1) ^^^ (rs64 ctx w ||| rt64 ctx w)), b)
    else if w &&& 0x3F = 0x2A then
      some (regSet ctx (rdIdx w) (if irs32 ctx w < irt32 ctx w then 1 else 0), b)
    else if w &&& 0x3F = 0x2B then
      some (regSet ctx (rdIdx w) (if rs32 ctx w < rt32 ctx w then 1 else 0), b)
    else if w &&& 0x3F = 0x2C then
      if irs64 ctx w + irt64 ctx w < -(2 ^ 63) ∨ 2 ^ 63 ≤ irs64 ctx w + irt64 ctx w then none
      else some (regSet ctx (rdIdx w) (wrap64 (irs64 ctx w + irt64 ctx w)), b)
    else if w &&& 0x3F = 0x2D then
      some (regSet ctx (rdIdx w) ((rs64 ctx w + rt64 ctx w) % 2 ^ 64), b)
    else if w &&& 0x3F = 0x2E then
      if irs64 ctx w - irt64 ctx w < -(2 ^ 63) ∨ 2 ^ 63 ≤ irs64 ctx w - irt64 ctx w then none
      else some (regSet ctx (rdIdx w) (wrap64 (irs64 ctx w - irt64 ctx w)), b)
    else if w &&& 0x3F = 0x2F then
      some (regSet ctx (rdIdx w) ((rs64 ctx w + 2 ^ 64 - rt64 ctx w) % 2 ^ 64), b)
    else if w &&& 0x3F = 0x38 then
      some (regSet ctx (rdIdx w) (rt64 ctx w <<< saOf w % 2 ^ 64), b)
    else if w &&& 0x3F = 0x3A then some (regSet ctx (rdIdx w) (rt64 ctx w >>> saOf w), b)
    else if w &&& 0x3F = 0x3B then
      some (regSet ctx (rdIdx w) (wrap64 (Int.fdiv (irt64 ctx w) (2 ^ saOf w))), b)
    else if w &&& 0x3F = 0x3C then
      some (regSet ctx (rdIdx w) (rt64 ctx w <<< (saOf w + 32) % 2 ^ 64), b)
    else if w &&& 0x3F = 0x3E then
      some (regSet ctx (rdIdx w) (rt64 ctx w >>> (saOf w + 32)), b)
    else if w &&& 0x3F = 0x3F then
      some (regSet ctx (rdIdx w) (wrap64 (Int.fdiv (irt64 ctx w) (2 ^ (saOf w + 32)))), b)
    else none
  else if w >>> 26 = 0x01 then
    if rtIdx w = 0x00 then some (ctx.branch (decide (irs64 ctx w < 0)) (btgt ctx w) false, b)
    else if rtIdx w = 0x01 then
      some (ctx.branch (decide (0 ≤ irs64 ctx w)) (btgt ctx w) false, b)
    else if rtIdx w = 0x02 then
      some (ctx.branch (decide (irs64 ctx w < 0)) (btgt ctx w) true, b)
    else if rtIdx w = 0x03 then
      some (ctx.branch (decide (0 ≤ irs64 ctx w)) (btgt ctx w) true, b)
    else if rtIdx w = 0x10 then
      let c1 := regSet ctx 31 ((ctx.pc + 4) % 2 ^ 32)
      some (c1.branch (decide (irs64 c1 w < 0)) (btgt c1 w) false, b)
    else if rtIdx w = 0x11 then
      let c1 := regSet ctx 31 ((ctx.pc + 4) % 2 ^ 32)
      some (c1.branch (decide (0 ≤ irs64 c1 w)) (btgt c1 w) false, b)
    else if rtIdx w = 0x12 then
      let c1 := regSet ctx 31 ((ctx.pc + 4) % 2 ^ 32)
      some (c1.branch (decide (irs64 c1 w < 0)) (btgt c1 w) true, b)
    else if rtIdx w = 0x13 then
      let c1 := regSet ctx 31 ((ctx.pc + 4) % 2 ^ 32)
      some (c1.branch (decide (0 ≤ irs64 c1 w)) (btgt c1 w) true, b)
    else none
  else if w >>> 26 = 0x02 then some (ctx.branch true (jtgt ctx w) true, b)
  else if w >>> 26 = 0x03 then
    let c1 := regSet ctx 31 ((ctx.pc + 4) % 2 ^ 32)
    some (c1.branch true (jtgt c1 w) true, b)
  else if w >>> 26 = 0x04 then
    some (ctx.branch (decide (rs64 ctx w = rt64 ctx w)) (btgt ctx w) false, b)
  else if w >>> 26 = 0x05 then
    some (ctx.branch (decide (rs64 ctx w ≠ rt64 ctx w)) (btgt ctx w) false, b)
  else if w >>> 26 = 0x06 then
    some (ctx.branch (decide (irs64 ctx w ≤ 0)) (btgt ctx w) false, b)
  else if w >>> 26 = 0x07 then
    some (ctx.branch (decide (0 < irs64 ctx w)) (btgt ctx w) false, b)
  else if w >>> 26 = 0x08 then
    if irs32 ctx w + sximm32 w < -(2 ^ 31) ∨ 2 ^ 31 ≤ irs32 ctx w + sximm32 w then none
    else some (regSet ctx (rtIdx w) (wrap64 (irs32 ctx w + sximm32 w)), b)
  else if w >>> 26 = 0x09 then
    some (regSet ctx (rtIdx w) (sx64 (wrap32 (irs32 ctx w + sximm32 w))), b)
  else if w >>> 26 = 0x0A then
    some (regSet ctx (rtIdx w) (if irs32 ctx w < sximm32 w then 1 else 0), b)
  else if w >>> 26 = 0x0B then
    some (regSet ctx (rtIdx w) (if rs32 ctx w < wrap32 (sximm32 w) then 1 else 0), b)
  else if w >>> 26 = 0x0C then some (regSet ctx (rtIdx w) (rs64 ctx w &&& (w &&& 0xFFFF)), b)
  else if w >>> 26 = 0x0D then some (regSet ctx (rtIdx w) (rs64 ctx w ||| (w &&& 0xFFFF)), b)
  else if w >>> 26 = 0x0E then some (regSet ctx (rtIdx w) (rs64 ctx w ^^^ (w &&& 0xFFFF)), b)
  else if w >>> 26 = 0x0F then
    some (regSet ctx (rtIdx w) (sx64 ((w &&& 0xFFFF) <<< 16 % 2 ^ 32)), b)
  else if w >>> 26 = 0x10 then some (ctx, b)
  else if w >>> 26 = 0x11 then some (ctx, b)
  else if w >>> 26 = 0x12 then some (ctx, b)
  else if w >>> 26 = 0x13 then some (ctx, b)
  else if w >>> 26 = 0x14 then
    some (ctx.branch (decide (rs64 ctx w = rt64 ctx w)) (btgt ctx w) true, b)
  else if w >>> 26 = 0x15 then
    some (ctx.branch (decide (rs64 ctx w ≠ rt64 ctx w)) (btgt ctx w) true, b)
  else if w >>> 26 = 0x16 then
    some (ctx.branch (decide (irs64 ctx w ≤ 0)) (btgt ctx w) true, b)
  else if w >>> 26 = 0x17 then
    some (ctx.branch (decide (0 < irs64 ctx w)) (btgt ctx w) true, b)
  else if w >>> 26 = 0x18 then
    if irs64 ctx w + sximm32 w < -(2 ^ 63) ∨ 2 ^ 63 ≤ irs64 ctx w + sximm32 w then none
    else some (regSet ctx (rtIdx w) (wrap64 (irs64 ctx w + sximm32 w)), b)
  else if w >>> 26 = 0x19 then
    some (regSet ctx (rtIdx w) (wrap64 (irs64 ctx w + sximm32 w)), b)
  else if w >>> 26 = 0x20 then
    some (regSet ctx (rtIdx w) (sx8_64 (cpuRead8 b (eaOf ctx w))), b)
  else if w >>> 26 = 0x21 then
    some (regSet ctx (rtIdx w) (sx16_64 (cpuRead16 b (eaOf ctx w))), b)
  else if w >>> 26 = 0x22 then
    some (regSet ctx (rtIdx w) (sx64 (lwl b (eaOf ctx w) (rt32 ctx w))), b)
  else if w >>> 26 = 0x23 then
    some (regSet ctx (rtIdx w) (sx64 (cpuRead32 b (eaOf ctx w))), b)
  else if w >>> 26 = 0x24 then some (regSet ctx (rtIdx w) (cpuRead8 b (eaOf ctx w)), b)
  else if w >>> 26 = 0x25 then some (regSet ctx (rtIdx w) (cpuRead16 b (eaOf ctx w)), b)
  else if w >>> 26 = 0x26 then
    some (regSet ctx (rtIdx w) (sx64 (lwr b (eaOf ctx w) (rt32 ctx w))), b)
  else if w >>> 26 = 0x27 then some (regSet ctx (rtIdx w) (cpuRead32 b (eaOf ctx w)), b)
  else if w >>> 26 = 0x28 then some (ctx, cpuWrite8 b (eaOf ctx w) (rt32 ctx w % 2 ^ 8))
  else if w >>> 26 = 0x29 then some (ctx, cpuWrite16 b (eaOf ctx w) (rt32 ctx w % 2 ^ 16))
  else if w >>> 26 = 0x2A then
    some (ctx, cpuWrite32 b (eaOf ctx w) (swl b (eaOf ctx w) (rt32 ctx w)))
  else if w >>> 26 = 0x2B then some (ctx, cpuWrite32 b (eaOf ctx w) (rt32 ctx w))
  else if w >>> 26 = 0x2E then
    some (ctx, cpuWrite32 b (eaOf ctx w) (swr b (eaOf ctx w) (rt32 ctx w)))
  else if w >>> 26 = 0x2F then some (ctx, b)
  else if w >>> 26 = 0x31 then some (ctx, b)
  else if w >>> 26 = 0x32 then some (ctx, b)
  else if w >>> 26 = 0x35 then some (ctx, b)
  else if w >>> 26 = 0x36 then some (ctx, b)
  else if w >>> 26 = 0x37 then some (regSet ctx (rtIdx w) (cpuRead64 b (eaOf ctx w)), b)
  else if w >>> 26 = 0x39 then some (ctx, b)
  else if w >>> 26 = 0x3A then some (ctx, b)
  else if w >>> 26 = 0x3D then some (ctx, b)
  else if w >>> 26 = 0x3E then some (ctx, b)
  else if w >>> 26 = 0x3F then some (ctx, cpuWrite64 b (eaOf ctx w) (rt64 ctx w))
  else none

/-- Embedding of one `Cpu::op` step: increment the clock, decode and execute
the word, returning the new context and bus, or `none` where the source
panics. -/
def execOp (b : Bus) (ctx0 : CpuContext) (w0 : Nat) : Option (CpuContext × Bus) :=
  execOpBody b { ctx0 with clock := ctx0.clock + 1 } (w0 % 2 ^ 32)

/-! ## The run loop (Cpu::run), no-coprocessor configuration -/

/-- Fetch address masking (`Cpu::fetch`): `addr & 0x1FFF_FFFC`. -/
def fetchAddr (addr : Nat) : Nat := addr &&& 0x1FFFFFFC

/-- The tight inner loop of `Cpu::run`: execute successive words of the fetch
region (`rem` words remain, the next is at word position `pos` from `base`)
until the iterator ends, the deadline is reached, or `tight_exit` is set.
Returns the final context, bus, and next iterator position. -/
def tightLoop (untl : Int) (base : Nat) :
    Nat → Nat → Bus → CpuContext → Option (CpuContext × Bus × Nat)
  | 0, pos, b, ctx => some (ctx, b, pos)
  | rem + 1, pos, b, ctx =>
    match execOp b { ctx with pc := (ctx.pc + 4) % 2 ^ 32 } (b.mem (base + 4 * pos)) with
    | none => none
    | some (c, b2) =>
      if untl ≤ c.clock ∨ c.tight_exit then some (c, b2, pos + 1)
      else tightLoop untl base rem (pos + 1) b2 c

/-- The delay-slot word chosen by the branch-resolution block: the next word
of the remaining fetch iterator, or a fresh fetch at the current PC. -/
def delayWord (b : Bus) (base pos pc : Nat) : Nat :=
  if pos < b.regionLen base then b.mem (base + 4 * pos) else b.mem (fetchAddr pc)

/-- The branch-resolution block ending one outer `Cpu::run` iteration: when a
branch is pending, pick the delay-slot word, assign PC from `branch_pc`,
clear `branch_pc`, and only then execute the delay-slot instruction (this is
the source order: the PC update precedes `self.op(op)`). -/
def branchBlock (b : Bus) (base pos : Nat) (ctx : CpuContext) : Option (CpuContext × Bus) :=
  if ctx.branch_pc ≠ 0 then
    execOp b { ctx with pc := ctx.branch_pc, branch_pc := 0 } (delayWord b base pos ctx.pc)
  else some (ctx, b)

/-- One iteration of the outer while loop of `Cpu::run` (no Cop0 installed,
so no pending-interrupt check fires). -/
def outerIter (untl : Int) (b : Bus) (ctx : CpuContext) : Option (CpuContext × Bus) :=
  let base := fetchAddr ctx.pc
  match tightLoop untl base (b.regionLen base) 0 b { ctx with tight_exit := false } with
  | none => none
  | some (c, b2, pos) => branchBlock b2 base pos c

/-- Embedding of `Cpu::run(until)`, with fuel bounding the number of outer
loop iterations. -/
def run (untl : Int) : Nat → Bus → CpuContext → Option (CpuContext × Bus)
  | 0, b, ctx => some (ctx, b)
  | fuel + 1, b, ctx =>
    if ctx.clock < untl then
      match outerIter untl b ctx with
      | none => none
      | some (c, b2) => run untl fuel b2 c
    else some (ctx, b)

/-- A bus holding zeros everywhere, with empty fetch regions. -/
def zeroBus : Bus := { mem := fun _ => 0, regionLen := fun _ => 0 }

/-- C10: calling run(until) with until ≤ clock returns immediately: no
instruction executes and the whole CPU context — registers, HI, LO, PC,
branch_pc, clock, interrupt lines — is returned unchanged (and the bus is
untouched). -/
theorem run_deadline_reached_noop (untl : Int) (fuel : Nat) (b : Bus)
    (ctx : CpuContext) (h : untl ≤ ctx.clock) :
    run untl fuel b ctx = some (ctx, b) := by
  cases fuel with
  | zero => rfl
  | succ n =>
    unfold run
    rw [if_neg (by omega)]

theorem run_deadline_reached_noop_witness :
    run 0 3 zeroBus CpuContext.reset = some (CpuContext.reset, zeroBus) :=
  run_deadline_reached_noop 0 3 zeroBus CpuContext.reset (by decide)

/-! ## Division by zero, MULTU boundary value, GPR0 writes -/

/-- CPU context with GPR1 = 5 and GPR2 = 0 (the zero divisor). -/
def divCtx : CpuContext := { CpuContext.reset with regs := (List.replicate 32 0).set 1 5 }

/-- C6: executing DIV/DIVU/DDIV/DDIVU with divisor zero hits the Rust
`wrapping_div` / `wrapping_rem` division-by-zero panic: the embedded step
returns `none` (abort) instead of completing with some HI/LO values as the
claim requires. -/
theorem div_by_zero_aborts :
    execOp zeroBus divCtx 0x0022001A = none ∧
    execOp zeroBus divCtx 0x0022001B = none ∧
    execOp zeroBus divCtx 0x0022001E = none ∧
    execOp zeroBus divCtx 0x0022001F = none :=
  ⟨rfl, rfl, rfl, rfl⟩

/-- CPU context with GPR1 = GPR2 = 0xFFFF_FFFF. -/
def multuCtx : CpuContext :=
  { CpuContext.reset with
    regs := ((List.replicate 32 0).set 1 0xFFFFFFFF).set 2 0xFFFFFFFF }

/-- C8 counterexample: MULTU on 0xFFFF_FFFF × 0xFFFF_FFFF places the
sign-extended upper product half 0xFFFF_FFFF_FFFF_FFFE in HI, not the
0xFFFF_FFFE_0000_0000 stated by the claim. -/
theorem multu_hi_counterexample :
    ((execOp zeroBus multuCtx 0x00220019).map fun p => (p.1.hi, p.1.lo)) =
      some (0xFFFFFFFFFFFFFFFE, 1) ∧
    (0xFFFFFFFFFFFFFFFE : Nat) ≠ 0xFFFFFFFE00000000 :=
  ⟨rfl, by decide⟩

/-- C8 (amended): MULTU with both operands 0xFFFF_FFFF yields
HI = 0xFFFF_FFFF_FFFF_FFFE and LO = 0x0000_0000_0000_0001: the 64-bit
product 0xFFFF_FFFE_0000_0001 is split into 32-bit halves and each half is
sign-extended to 64 bits when placed in HI/LO. -/
theorem multu_max_operands_hi_lo :
    ((execOp zeroBus multuCtx 0x00220019).map fun p => (p.1.hi, p.1.lo)) =
      some (0xFFFFFFFFFFFFFFFE, 1) :=
  rfl

/-- C9: a write to GPR0 is observable through subsequent reads.  Executing
ADDIU r0, r0, 5 stores 5 into the register file at index 0, and a read of
GPR0 afterwards returns 5, not 0: the interpreter does not special-case
register 0. -/
theorem gpr0_write_observable :
    ((execOp zeroBus CpuContext.reset 0x24000005).map fun p => regGet p.1 0) = some 5 ∧
    (5 : Nat) ≠ 0 :=
  ⟨rfl, by decide⟩

/-! ## Likely branches (C5) -/

/-- Decoded predicate: the word is one of the eight likely branch variants
(BEQL/BNEL/BLEZL/BGTZL and the REGIMM BLTZL/BGEZL/BLTZALL/BGEZALL). -/
def isLikelyBranch (w0 : Nat) : Bool :=
  let w := w0 % 2 ^ 32
  decide ((w >>> 26 = 0x14) ∨ (w >>> 26 = 0x15) ∨ (w >>> 26 = 0x16) ∨ (w >>> 26 = 0x17) ∨
    ((w >>> 26 = 0x01) ∧ (rtIdx w = 0x02 ∨ rtIdx w = 0x03 ∨ rtIdx w = 0x12 ∨ rtIdx w = 0x13)))

/-- Decoded predicate: the branch links, writing PC+4 to GPR31 before the
condition is evaluated (BLTZALL/BGEZALL among the likely variants). -/
def isLinkBranch (w0 : Nat) : Bool :=
  let w := w0 % 2 ^ 32
  decide ((w >>> 26 = 0x01) ∧ (rtIdx w = 0x12 ∨ rtIdx w = 0x13))

/-- The register-file effect of the unconditional link write of the branch!
macro, applied to the context as it stands when the branch executes. -/
def applyLink (ctx : CpuContext) (w : Nat) : CpuContext :=
  if isLinkBranch w then regSet ctx 31 ((ctx.pc + 4) % 2 ^ 32) else ctx

/-- The condition a (likely) branch word evaluates, on the context the
branch! macro reads it from (after the link write for linking variants). -/
def branchCond (ctx : CpuContext) (w0 : Nat) : Bool :=
  let w := w0 % 2 ^ 32
  if w >>> 26 = 0x14 then decide (regGet ctx (rsIdx w) = regGet ctx (rtIdx w))
  else if w >>> 26 = 0x15 then decide (regGet ctx (rsIdx w) ≠ regGet ctx (rtIdx w))
  else if w >>> 26 = 0x16 then decide (toI64 (regGet ctx (rsIdx w)) ≤ 0)
  else if w >>> 26 = 0x17 then decide (0 < toI64 (regGet ctx (rsIdx w)))
  else if rtIdx w = 0x02 ∨ rtIdx w = 0x12 then decide (toI64 (regGet ctx (rsIdx w)) < 0)
  else decide (0 ≤ toI64 (regGet ctx (rsIdx w)))

/-- C5: a likely branch whose condition is false, executed inside the tight
loop of run(until), advances PC by 8 in total from the branch instruction
address (the delay slot is skipped: the loop stops without executing it, and
only the link register write of the ALL-variants touches any other state)
and increases the clock by exactly 2. -/
theorem likely_branch_not_taken_skips_delay
    (untl : Int) (base rem pos : Nat) (b : Bus) (ctx : CpuContext) (w : Nat)
    (hw : b.mem (base + 4 * pos) = w)
    (hL : isLikelyBranch w = true)
    (hC : branchCond (applyLink { ctx with pc := (ctx.pc + 4) % 2 ^ 32 } w) w = false) :
    tightLoop untl base (rem + 1) pos b ctx =
      some ({ applyLink { ctx with pc := (ctx.pc + 4) % 2 ^ 32 } w with
                pc := (ctx.pc + 8) % 2 ^ 32,
                clock := ctx.clock + 2,
                tight_exit := true }, b, pos + 1) := by
  simp only [isLikelyBranch, decide_eq_true_eq] at hL
  rcases hL with hop | hop | hop | hop | ⟨hop, hrt | hrt | hrt | hrt⟩
  · simp only [branchCond, applyLink, isLinkBranch, hop, Nat.reduceEqDiff, reduceIte,
      decide_False, decide_True, false_and, true_and, and_true, and_false, false_or,
      or_false, Bool.false_eq_true, if_false, if_true] at hC ⊢
    unfold tightLoop
    rw [hw]
    simp only [execOp, execOpBody, hop, Nat.reduceEqDiff, reduceIte]
    simp only [rs64, rt64, irs64, regGet, regSet] at hC ⊢
    try simp only [Nat.mod_add_mod] at hC ⊢
    simp only [CpuContext.branch]
    rw [hC]
    simp
    all_goals omega
  · simp only [branchCond, applyLink, isLinkBranch, hop, Nat.reduceEqDiff, reduceIte,
      decide_False, decide_True, false_and, true_and, and_true, and_false, false_or,
      or_false, Bool.false_eq_true, if_false, if_true] at hC ⊢
    unfold tightLoop
    rw [hw]
    simp only [execOp, execOpBody, hop, Nat.reduceEqDiff, reduceIte]
    simp only [rs64, rt64, irs64, regGet, regSet] at hC ⊢
    try simp only [Nat.mod_add_mod] at hC ⊢
    simp only [CpuContext.branch]
    rw [hC]
    simp
    all_goals omega
  · simp only [branchCond, applyLink, isLinkBranch, hop, Nat.reduceEqDiff, reduceIte,
      decide_False, decide_True, false_and, true_and, and_true, and_false, false_or,
      or_false, Bool.false_eq_true, if_false, if_true] at hC ⊢
    unfold tightLoop
    rw [hw]
    simp only [execOp, execOpBody, hop, Nat.reduceEqDiff, reduceIte]
    simp only [rs64, rt64, irs64, regGet, regSet] at hC ⊢
    try simp only [Nat.mod_add_mod] at hC ⊢
    simp only [CpuContext.branch]
    rw [hC]
    simp
    all_goals omega
  · simp only [branchCond, applyLink, isLinkBranch, hop, Nat.reduceEqDiff, reduceIte,
      decide_False, decide_True, false_and, true_and, and_true, and_false, false_or,
      or_false, Bool.false_eq_true, if_false, if_true] at hC ⊢
    unfold tightLoop
    rw [hw]
    simp only [execOp, execOpBody, hop, Nat.reduceEqDiff, reduceIte]
    simp only [rs64, rt64, irs64, regGet, regSet] at hC ⊢
    try simp only [Nat.mod_add_mod] at hC ⊢
    simp only [CpuContext.branch]
    rw [hC]
    simp
    all_goals omega
  · simp only [branchCond, applyLink, isLinkBranch, hop, hrt, Nat.reduceEqDiff, reduceIte,
      decide_False, decide_True, false_and, true_and, and_true, and_false, false_or,
      or_false, Bool.false_eq_true, if_false, if_true] at hC ⊢
    unfold tightLoop
    rw [hw]
    simp only [execOp, execOpBody, hop, hrt, Nat.reduceEqDiff, reduceIte]
    simp only [rs64, rt64, irs64, regGet, regSet] at hC ⊢
    try simp only [Nat.mod_add_mod] at hC ⊢
    simp only [CpuContext.branch]
    rw [hC]
    simp
    all_goals omega
  · simp only [branchCond, applyLink, isLinkBranch, hop, hrt, Nat.reduceEqDiff, reduceIte,
      decide_False, decide_True, false_and, true_and, and_true, and_false, false_or,
      or_false, Bool.false_eq_true, if_false, if_true] at hC ⊢
    unfold tightLoop
    rw [hw]
    simp only [execOp, execOpBody, hop, hrt, Nat.reduceEqDiff, reduceIte]
    simp only [rs64, rt64, irs64, regGet, regSet] at hC ⊢
    try simp only [Nat.mod_add_mod] at hC ⊢
    simp only [CpuContext.branch]
    rw [hC]
    simp
    all_goals omega
  · simp only [branchCond, applyLink, isLinkBranch, hop, hrt, Nat.reduceEqDiff, reduceIte,
      decide_False, decide_True, false_and, true_and, and_true, and_false, false_or,
      or_false, Bool.false_eq_true, if_false, if_true] at hC ⊢
    unfold tightLoop
    rw [hw]
    simp only [execOp, execOpBody, hop, hrt, Nat.reduceEqDiff, reduceIte]
    simp only [rs64, rt64, irs64, regGet, regSet] at hC ⊢
    try simp only [Nat.mod_add_mod] at hC ⊢
    simp only [CpuContext.branch]
    rw [hC]
    simp
    all_goals omega
  · simp only [branchCond, applyLink, isLinkBranch, hop, hrt, Nat.reduceEqDiff, reduceIte,
      decide_False, decide_True, false_and, true_and, and_true, and_false, false_or,
      or_false, Bool.false_eq_true, if_false, if_true] at hC ⊢
    unfold tightLoop
    rw [hw]
    simp only [execOp, execOpBody, hop, hrt, Nat.reduceEqDiff, reduceIte]
    simp only [rs64, rt64, irs64, regGet, regSet] at hC ⊢
    try simp only [Nat.mod_add_mod] at hC ⊢
    simp only [CpuContext.branch]
    rw [hC]
    simp
    all_goals omega

/-- A bus whose every word is the BNEL r0, r0 instruction (0x54000000). -/
def likelyBus : Bus := { mem := fun _ => 0x54000000, regionLen := fun _ => 1 }

theorem likely_branch_not_taken_skips_delay_witness :
    tightLoop 5 0 1 0 likelyBus CpuContext.reset =
      some ({ applyLink { CpuContext.reset with
                            pc := (CpuContext.reset.pc + 4) % 2 ^ 32 } 0x54000000 with
                pc := (CpuContext.reset.pc + 8) % 2 ^ 32,
                clock := CpuContext.reset.clock + 2,
                tight_exit := true }, likelyBus, 1) :=
  likely_branch_not_taken_skips_delay 5 0 0 0 likelyBus CpuContext.reset 0x54000000 rfl
    (by decide) (by decide)

/-! ## Branch and delay-slot protocol (C4) -/

/-- Decoded predicate: the word dispatches to the branch! macro (jumps,
branches, JR/JALR), the only instructions that read or write PC or
branch_pc inside Cpu::op. -/
def isBranchOp (w0 : Nat) : Bool :=
  let w := w0 % 2 ^ 32
  let op := w >>> 26
  decide ((op = 0x00 ∧ (w &&& 0x3F = 0x08 ∨ w &&& 0x3F = 0x09)) ∨
    (op = 0x01 ∧ (rtIdx w = 0x00 ∨ rtIdx w = 0x01 ∨ rtIdx w = 0x02 ∨ rtIdx w = 0x03 ∨
      rtIdx w = 0x10 ∨ rtIdx w = 0x11 ∨ rtIdx w = 0x12 ∨ rtIdx w = 0x13)) ∨
    op = 0x02 ∨ op = 0x03 ∨ op = 0x04 ∨ op = 0x05 ∨ op = 0x06 ∨ op = 0x07 ∨
    op = 0x14 ∨ op = 0x15 ∨ op = 0x16 ∨ op = 0x17)

set_option maxHeartbeats 3200000 in
/-- Executing any non-branch instruction leaves PC, branch_pc and tight_exit
unchanged and advances the clock by exactly one cycle. -/
theorem execOp_nonbranch (b : Bus) (ctx : CpuContext) (w : Nat) (c : CpuContext) (b2 : Bus)
    (hx : execOp b ctx w = some (c, b2)) (hnb : isBranchOp w = false) :
    c.pc = ctx.pc ∧ c.branch_pc = ctx.branch_pc ∧ c.clock = ctx.clock + 1 ∧
      c.tight_exit = ctx.tight_exit := by
  unfold execOp execOpBody at hx
  obtain ⟨k, hk⟩ : ∃ k, (w % 2 ^ 32) >>> 26 = k := ⟨_, rfl⟩
  have hkb : k < 64 := by
    rw [← hk, Nat.shiftRight_eq_div_pow]
    have h32 : w % 2 ^ 32 < 2 ^ 32 := Nat.mod_lt _ (by norm_num)
    omega
  rw [hk] at hx
  interval_cases k <;>
    simp only [Nat.reduceEqDiff, reduceIte] at hx <;>
    first
      | exact (Option.noConfusion hx)
      | (exfalso
         norm_num at hk
         simp [isBranchOp, hk] at hnb
         done)
      | (obtain ⟨f, hf⟩ : ∃ f, (w % 2 ^ 32) &&& 63 = f := ⟨_, rfl⟩
         have hfb : f < 64 := by
           rw [← hf]
           exact Nat.lt_succ_of_le Nat.and_le_right
         rw [hf] at hx
         interval_cases f <;>
           simp only [Nat.reduceEqDiff, reduceIte] at hx <;>
           first
             | exact (Option.noConfusion hx)
             | (exfalso
                norm_num at hk hf
                simp [isBranchOp, hk, hf] at hnb
                done)
             | ((repeat' split at hx) <;>
                first
                  | exact (Option.noConfusion hx)
                  | (simp only [Option.some.injEq, Prod.mk.injEq] at hx
                     obtain ⟨h1, h2⟩ := hx
                     subst h1
                     simp [regSet]
                     done)))
      | ((repeat' split at hx) <;>
         first
           | exact (Option.noConfusion hx)
           | (simp only [Option.some.injEq, Prod.mk.injEq] at hx
              obtain ⟨h1, h2⟩ := hx
              subst h1
              simp [regSet]
              done))
      | (obtain ⟨r, hr⟩ : ∃ r, rtIdx (w % 2 ^ 32) = r := ⟨_, rfl⟩
         have hrb : r < 32 := by
           rw [← hr]
           simp only [rtIdx]
           exact Nat.lt_succ_of_le Nat.and_le_right
         rw [hr] at hx
         interval_cases r <;>
           simp only [Nat.reduceEqDiff, reduceIte] at hx <;>
           first
             | exact (Option.noConfusion hx)
             | (exfalso
                norm_num at hk hr
                simp [isBranchOp, hk, hr] at hnb
                done))

/-- C4 (amended): for a taken branch inside run(until): (1) the branch
instruction records the target in branch_pc and sets tight_exit without
modifying PC, the register file or the clock; (2) if the pending delay-slot
word is not itself a branch instruction, the branch-resolution block
executes exactly one further instruction (clock +1) and after the pair PC
equals the branch target and branch_pc is 0 — with the assignment
PC ← branch_pc happening before the delay-slot instruction executes, as
witnessed by the execution hypothesis being taken from the already-updated
context. -/
theorem branch_and_delay_slot_protocol :
    (∀ (ctx : CpuContext) (tgt : Nat) (lk : Bool),
      (ctx.branch true tgt lk).pc = ctx.pc ∧
      (ctx.branch true tgt lk).branch_pc = tgt ∧
      (ctx.branch true tgt lk).tight_exit = true ∧
      (ctx.branch true tgt lk).regs = ctx.regs ∧
      (ctx.branch true tgt lk).clock = ctx.clock) ∧
    (∀ (b : Bus) (base pos : Nat) (ctx c : CpuContext) (b2 : Bus),
      ctx.branch_pc ≠ 0 →
      isBranchOp (delayWord b base pos ctx.pc) = false →
      execOp b { ctx with pc := ctx.branch_pc, branch_pc := 0 }
          (delayWord b base pos ctx.pc) = some (c, b2) →
      branchBlock b base pos ctx = some (c, b2) ∧
      c.pc = ctx.branch_pc ∧ c.branch_pc = 0 ∧ c.clock = ctx.clock + 1) := by
  constructor
  · intro ctx tgt lk
    simp [CpuContext.branch]
  · intro b base pos ctx c b2 hB hnb hx
    have h := execOp_nonbranch _ _ _ _ _ hx hnb
    refine ⟨?_, h.1, h.2.1, h.2.2.1⟩
    unfold branchBlock
    rw [if_pos hB]
    exact hx

/-- Pending-branch context for the delay-slot witness: branch target 16. -/
def delayCtx : CpuContext := { CpuContext.reset with branch_pc := 16 }

/-- Result of executing the NOP delay slot from `delayCtx` after the PC
update. -/
def delayRes : CpuContext :=
  { CpuContext.reset with
    pc := 16
    branch_pc := 0
    clock := 1
    regs := (List.replicate 32 0).set 0 0 }

theorem branch_and_delay_slot_protocol_witness :
    branchBlock zeroBus 0 0 delayCtx = some (delayRes, zeroBus) ∧
    delayRes.pc = delayCtx.branch_pc ∧ delayRes.branch_pc = 0 ∧
    delayRes.clock = delayCtx.clock + 1 :=
  branch_and_delay_slot_protocol.2 zeroBus 0 0 delayCtx delayRes zeroBus
    (by decide) (by decide) (by rfl)

/-- Program for the counterexample: BEQ r0, r0, +3 at address 0 with a JAL
in its delay slot at address 4. -/
def jalDelayBus : Bus :=
  { mem := fun a => if a = 0 then 0x10000003 else if a = 4 then 0x0C000100 else 0,
    regionLen := fun base => if base = 0 then 2 else 0 }

/-- C4 counterexample: running the pair {BEQ taken to 16; delay slot JAL}
with deadline 2 ends with PC = 16 (the branch target) but branch_pc =
0x400 ≠ 0 (the JAL retargeted it), and GPR31 = 20 = target+4, not 8 =
branch address + 8: the delay-slot instruction observed PC already updated
to the branch target, so the claimed assignment-after-delay-slot order (and
the claimed branch_pc = 0 after every branch-plus-delay pair) is false. -/
theorem branch_delay_order_counterexample :
    ((run 2 2 jalDelayBus { CpuContext.reset with pc := 0 }).map
        (fun p => (p.1.pc, p.1.branch_pc, p.1.regs.getD 31 0))) =
      some (16, 0x400, 20) ∧
    (0x400 : Nat) ≠ 0 ∧ (20 : Nat) ≠ 8 := by
  refine ⟨by decide, by decide, by decide⟩

/-! ## Arithmetic views of the unaligned access helpers (C7) -/

theorem and3_eq_mod (x : Nat) : x &&& 3 = x % 4 := by
  have h : (3 : Nat) = 2 ^ 2 - 1 := by norm_num
  rw [h, Nat.and_pow_two_sub_one_eq_mod]

theorem xor3_eq_sub (m : Nat) (hm : m < 4) : m ^^^ 3 = 3 - m := by
  interval_cases m <;> decide

theorem lor_mul_pow_add (k : Nat) : ∀ a c : Nat, c < 2 ^ k → a * 2 ^ k ||| c = a * 2 ^ k + c := by
  induction k with
  | zero =>
    intro a c hc
    have hc0 : c = 0 := by omega
    subst hc0
    simp
  | succ k ih =>
    intro a c hc
    have hc2 : c / 2 < 2 ^ k := by omega
    have e1 : a * 2 ^ (k + 1) = a * 2 ^ k * 2 := by ring
    have he : a * 2 ^ (k + 1) % 2 = 0 := by
      rw [e1]
      exact Nat.mul_mod_left _ 2
    have hd : (a * 2 ^ (k + 1) ||| c) / 2 = a * 2 ^ k ||| c / 2 := by
      rw [Nat.or_div_two, e1, Nat.mul_div_cancel _ (by norm_num)]
    have hm : (a * 2 ^ (k + 1) ||| c) % 2 = c % 2 := by
      rcases Nat.mod_two_eq_zero_or_one c with h | h
      · have hne : ¬((a * 2 ^ (k + 1) ||| c) % 2 = 1) := by
          rw [Nat.or_mod_two_eq_one]
          rintro (h1 | h1) <;> omega
        omega
      · have h1 : (a * 2 ^ (k + 1) ||| c) % 2 = 1 := by
          rw [Nat.or_mod_two_eq_one]
          right
          exact h
        omega
    have hih := ih a (c / 2) hc2
    omega

theorem lor_low_mul_pow (k a c : Nat) (hc : c < 2 ^ k) :
    c ||| a * 2 ^ k = c + a * 2 ^ k := by
  rw [Nat.lor_comm, lor_mul_pow_add k a c hc, Nat.add_comm]

theorem and_not_low (x n k : Nat) (hk : k ≤ n) :
    x &&& ((2 ^ n - 1) ^^^ (2 ^ k - 1)) = x % 2 ^ n / 2 ^ k * 2 ^ k := by
  have h : x % 2 ^ n / 2 ^ k * 2 ^ k = ((x % 2 ^ n) >>> k) <<< k := by
    rw [Nat.shiftRight_eq_div_pow, Nat.shiftLeft_eq]
  rw [h]
  apply Nat.eq_of_testBit_eq
  intro i
  simp only [Nat.testBit_and, Nat.testBit_xor, Nat.testBit_two_pow_sub_one,
    Nat.testBit_shiftLeft, Nat.testBit_shiftRight, Nat.testBit_mod_two_pow]
  by_cases h1 : i < k
  · simp [h1, show i < n from by omega, show ¬k ≤ i from by omega]
  · by_cases h2 : i < n
    · simp [h1, h2, show k ≤ i from by omega, show k + (i - k) = i from by omega]
    · simp [h1, h2, show k ≤ i from by omega, show k + (i - k) = i from by omega]

theorem mask32_eq (x : Nat) : mask32 x = x % 2 ^ 29 / 4 * 4 := by
  unfold mask32
  have h1 : (0x1FFFFFFF : Nat) = 2 ^ 29 - 1 := by norm_num
  have h2 : (0xFFFFFFFC : Nat) = (2 ^ 32 - 1) ^^^ (2 ^ 2 - 1) := by decide
  rw [h1, Nat.and_pow_two_sub_one_eq_mod, h2, and_not_low _ _ _ (by norm_num),
    Nat.mod_eq_of_lt
      (show x % 2 ^ 29 < 2 ^ 32 from lt_of_lt_of_le (Nat.mod_lt _ (by norm_num)) (by norm_num))]
  norm_num

theorem cpuRead32_cpuWrite32 (b : Bus) (x v y : Nat) :
    cpuRead32 (cpuWrite32 b x v) y =
      if mask32 y = mask32 x then v % 2 ^ 32 else cpuRead32 b y := by
  unfold cpuRead32 cpuWrite32
  by_cases h : mask32 y = mask32 x
  · simp [h]
  · simp [h]

theorem lwl_arith (b : Bus) (addr reg : Nat) :
    lwl b addr reg = reg % 2 ^ (addr % 4 * 8) +
      cpuRead32 b addr * 2 ^ (addr % 4 * 8) % 2 ^ 32 / 2 ^ (addr % 4 * 8) * 2 ^ (addr % 4 * 8) := by
  unfold lwl
  dsimp only
  have h32 : (0xFFFFFFFF : Nat) = 2 ^ 32 - 1 := by norm_num
  rw [and3_eq_mod, Nat.one_shiftLeft, h32, Nat.shiftLeft_eq,
    Nat.and_pow_two_sub_one_eq_mod, and_not_low _ _ _ (show addr % 4 * 8 ≤ 32 from by omega),
    Nat.mod_mod, lor_low_mul_pow _ _ _ (Nat.mod_lt _ (Nat.two_pow_pos _))]

theorem lwr_arith (b : Bus) (addr reg : Nat) :
    lwr b addr reg =
      reg % 2 ^ 32 / 2 ^ (32 - (3 - addr % 4) * 8) * 2 ^ (32 - (3 - addr % 4) * 8) +
        cpuRead32 b addr / 2 ^ ((3 - addr % 4) * 8) % 2 ^ (32 - (3 - addr % 4) * 8) := by
  unfold lwr
  dsimp only
  have h32 : (0xFFFFFFFF : Nat) = 2 ^ 32 - 1 := by norm_num
  rw [and3_eq_mod, xor3_eq_sub _ (Nat.mod_lt _ (by norm_num)), Nat.one_shiftLeft, h32,
    Nat.shiftRight_eq_div_pow, Nat.and_pow_two_sub_one_eq_mod,
    and_not_low _ _ _ (show 32 - (3 - addr % 4) * 8 ≤ 32 from by omega),
    lor_mul_pow_add _ _ _ (Nat.mod_lt _ (Nat.two_pow_pos _))]

theorem swl_arith (b : Bus) (addr reg : Nat) :
    swl b addr reg =
      cpuRead32 b addr % 2 ^ 32 / 2 ^ (32 - addr % 4 * 8) * 2 ^ (32 - addr % 4 * 8) +
        reg / 2 ^ (addr % 4 * 8) % 2 ^ (32 - addr % 4 * 8) := by
  unfold swl
  dsimp only
  have h32 : (0xFFFFFFFF : Nat) = 2 ^ 32 - 1 := by norm_num
  rw [and3_eq_mod, Nat.one_shiftLeft, h32, Nat.shiftRight_eq_div_pow,
    Nat.and_pow_two_sub_one_eq_mod,
    and_not_low _ _ _ (show 32 - addr % 4 * 8 ≤ 32 from by omega),
    lor_mul_pow_add _ _ _ (Nat.mod_lt _ (Nat.two_pow_pos _))]

theorem swr_arith (b : Bus) (addr reg : Nat) :
    swr b addr reg = cpuRead32 b addr % 2 ^ ((3 - addr % 4) * 8) +
      reg * 2 ^ ((3 - addr % 4) * 8) % 2 ^ 32 / 2 ^ ((3 - addr % 4) * 8) *
        2 ^ ((3 - addr % 4) * 8) := by
  unfold swr
  dsimp only
  have h32 : (0xFFFFFFFF : Nat) = 2 ^ 32 - 1 := by norm_num
  rw [and3_eq_mod, xor3_eq_sub _ (Nat.mod_lt _ (by norm_num)), Nat.one_shiftLeft, h32,
    Nat.shiftLeft_eq, Nat.and_pow_two_sub_one_eq_mod,
    and_not_low _ _ _ (show (3 - addr % 4) * 8 ≤ 32 from by omega),
    Nat.mod_mod, lor_low_mul_pow _ _ _ (Nat.mod_lt _ (Nat.two_pow_pos _))]

/-- C7: for every 32-bit value V, every effective address ea of any alignment, and
every initial register value, storing V via SWL at ea then SWR at ea+3 and loading
back via LWL at ea then LWR at ea+3 reconstructs a register whose low 32 bits
equal V (the store/load compositions are exactly those of the SWL/SWR/LWL/LWR
arms of `Cpu::op`). -/
theorem swl_swr_lwl_lwr_roundtrip (b : Bus) (ea V reg : Nat) (hV : V < 2 ^ 32) :
    lwr (cpuWrite32 (cpuWrite32 b ea (swl b ea V)) (ea + 3)
          (swr (cpuWrite32 b ea (swl b ea V)) (ea + 3) V)) (ea + 3)
        (lwl (cpuWrite32 (cpuWrite32 b ea (swl b ea V)) (ea + 3)
          (swr (cpuWrite32 b ea (swl b ea V)) (ea + 3) V)) ea reg) % 2 ^ 32 = V := by
  have ha : ea % 4 = 0 ∨ ea % 4 = 1 ∨ ea % 4 = 2 ∨ ea % 4 = 3 := by omega
  rcases ha with h0 | h0 | h0 | h0
  · have heq : mask32 (ea + 3) = mask32 ea := by rw [mask32_eq, mask32_eq]; omega
    have h3 : (ea + 3) % 4 = 3 := by omega
    simp only [lwl_arith, lwr_arith, swl_arith, swr_arith, cpuRead32_cpuWrite32, heq, h0, h3,
      eq_self_iff_true, if_true, if_false, ite_true, ite_false, Nat.reduceSub, Nat.reduceMul]
    omega
  · have hne : mask32 ea ≠ mask32 (ea + 3) := by rw [mask32_eq, mask32_eq]; omega
    have hne' : mask32 (ea + 3) ≠ mask32 ea := Ne.symm hne
    have h3 : (ea + 3) % 4 = 0 := by omega
    simp only [lwl_arith, lwr_arith, swl_arith, swr_arith, cpuRead32_cpuWrite32, hne, hne', h0,
      h3, eq_self_iff_true, if_true, if_false, ite_true, ite_false, Nat.reduceSub, Nat.reduceMul]
    omega
  · have hne : mask32 ea ≠ mask32 (ea + 3) := by rw [mask32_eq, mask32_eq]; omega
    have hne' : mask32 (ea + 3) ≠ mask32 ea := Ne.symm hne
    have h3 : (ea + 3) % 4 = 1 := by omega
    simp only [lwl_arith, lwr_arith, swl_arith, swr_arith, cpuRead32_cpuWrite32, hne, hne', h0,
      h3, eq_self_iff_true, if_true, if_false, ite_true, ite_false, Nat.reduceSub, Nat.reduceMul]
    omega
  · have hne : mask32 ea ≠ mask32 (ea + 3) := by rw [mask32_eq, mask32_eq]; omega
    have hne' : mask32 (ea + 3) ≠ mask32 ea := Ne.symm hne
    have h3 : (ea + 3) % 4 = 2 := by omega
    simp only [lwl_arith, lwr_arith, swl_arith, swr_arith, cpuRead32_cpuWrite32, hne, hne', h0,
      h3, eq_self_iff_true, if_true, if_false, ite_true, ite_false, Nat.reduceSub, Nat.reduceMul]
    omega

theorem swl_swr_lwl_lwr_roundtrip_witness :
    (0x12345678 : Nat) < 2 ^ 32 ∧
      lwr (cpuWrite32 (cpuWrite32 zeroBus 0x101 (swl zeroBus 0x101 0x12345678)) (0x101 + 3)
            (swr (cpuWrite32 zeroBus 0x101 (swl zeroBus 0x101 0x12345678)) (0x101 + 3)
              0x12345678)) (0x101 + 3)
          (lwl (cpuWrite32 (cpuWrite32 zeroBus 0x101 (swl zeroBus 0x101 0x12345678)) (0x101 + 3)
            (swr (cpuWrite32 zeroBus 0x101 (swl zeroBus 0x101 0x12345678)) (0x101 + 3)
              0x12345678)) 0x101 0xDEADBEEF) % 2 ^ 32 = 0x12345678 :=
  ⟨by norm_num, swl_swr_lwl_lwr_roundtrip zeroBus 0x101 0x12345678 0xDEADBEEF (by norm_num)⟩

